import Mathlib

/- Verification of the document-ingestion core of ARQ_AI_DocInsight.

The development shallowly embeds the Python modules
src/agents/ingestion_agent/ingestion_agent.py, main.py and
src/core/logging_utils.py.  A filesystem snapshot is a total map from path
strings to path states; the ingestion helpers become pure functions over
such snapshots, returning Except values in place of raised Python
exceptions.  The Python exception classes FileNotFoundError,
NotADirectoryError and IsADirectoryError are the carriers of the spec
error taxonomy DirectoryNotFound / FileNotFound, NotADirectory and
NotAFile respectively. -/

namespace DocInsight

/-- Byte content of a file: one natural number (0 to 255) per byte. -/
abbrev Bytes := List Nat

/-- State of one filesystem path: missing, a regular file with its byte
content, a directory with the base names of its immediate children, or an
entry that exists but is neither a regular file nor a directory. -/
inductive PathState where
  | absent : PathState
  | file : Bytes → PathState
  | dir : List String → PathState
  | other : PathState
deriving DecidableEq

/-- A filesystem snapshot, mapping every path string to its state. -/
def FileSystem : Type := String → PathState

/-- Python pathlib Path.exists test: true unless the path is missing. -/
def pyExists (fs : FileSystem) (p : String) : Bool :=
  match fs p with
  | PathState.absent => false
  | _ => true

/-- Python pathlib test for a regular file (the is_file method): true
exactly on regular files. -/
def pyIsFile (fs : FileSystem) (p : String) : Bool :=
  match fs p with
  | PathState.file _ => true
  | _ => false

/-- Python pathlib test for a directory (the is_dir method): true exactly
on directories. -/
def pyIsDir (fs : FileSystem) (p : String) : Bool :=
  match fs p with
  | PathState.dir _ => true
  | _ => false

/-- ASCII lowercasing of one character, mirroring Python str.lower on the
ASCII range relevant to extensions. -/
def lowerChar (c : Char) : Char :=
  if 65 ≤ c.toNat ∧ c.toNat ≤ 90 then Char.ofNat (c.toNat + 32) else c

/-- Python str.lower applied to a whole string. -/
def pyLower (s : String) : String :=
  String.mk (s.data.map lowerChar)

/-- Python str.lstrip with argument "." : drops every leading dot. -/
def pyLstripDots (s : String) : String :=
  String.mk (s.data.dropWhile (fun c => c = '.'))

/-- Final component of a path string, mirroring the name property of a
pathlib Path: the characters after the last slash. -/
def pathBaseName (p : String) : String :=
  String.mk ((p.data.reverse.takeWhile (fun c => c ≠ '/')).reverse)

/-- Python str.rfind for the dot character: index of the last dot in the
list, or -1 when no dot occurs. -/
def pyRfindDot (l : List Char) : Int :=
  match l.reverse.findIdx? (fun c => c = '.') with
  | none => -1
  | some j => (l.length : Int) - 1 - (j : Int)

/-- Suffix of a file base name, mirroring the suffix property of a pathlib
Path: the final ".ext" part when the last dot is neither the first nor the
last character of the name, and empty otherwise. -/
def pySuffix (name : List Char) : List Char :=
  let i := pyRfindDot name
  if 0 < i ∧ i < (name.length : Int) - 1 then name.drop i.toNat else []

/-- Suffix of the final component of a full path string. -/
def pathSuffix (p : String) : String :=
  String.mk (pySuffix (pathBaseName p).data)

/-- Normalization applied to each allow-list entry at ingestion_agent.py
line 47: ext.lstrip(".").lower(). -/
def normalizeExt (e : String) : String :=
  pyLower (pyLstripDots e)

/-- Extension of a listed file at ingestion_agent.py line 57 (File
Lister): file_path.suffix.lstrip(".").lower(). -/
def listerExtension (p : String) : String :=
  pyLower (pyLstripDots (pathSuffix p))

/-- Extension of an ingested file at ingestion_agent.py line 91 (File
Ingestor): path.suffix.lstrip(".").lower(). -/
def ingestExtension (p : String) : String :=
  pyLower (pyLstripDots (pathSuffix p))

/-- Python exception values raised by the ingestion helpers. -/
inductive PyError where
  | fileNotFoundError : String → PyError
  | notADirectoryError : String → PyError
  | isADirectoryError : String → PyError
deriving DecidableEq

/-- Default allow-list DEFAULT_ALLOWED_EXTENSIONS at ingestion_agent.py
line 22. -/
def DEFAULT_ALLOWED_EXTENSIONS : List String :=
  ["pdf", "txt", "docx", "csv", "xlsx"]

/-- Full path of an immediate child entry of a directory, as produced by
iterating a pathlib directory. -/
def childPath (d name : String) : String :=
  d ++ "/" ++ name

/-- Base names of the immediate children of a directory path. -/
def dirEntries (fs : FileSystem) (d : String) : List String :=
  match fs d with
  | PathState.dir es => es
  | _ => []

/-- Boolean lexicographic order on character lists by code point, the
order Python uses to compare the path strings being sorted. -/
def strLeB : List Char → List Char → Bool
  | [], _ => true
  | _ :: _, [] => false
  | c :: cs, d :: ds =>
    if c.toNat < d.toNat then true
    else if c.toNat = d.toNat then strLeB cs ds
    else false

/-- Lexicographic order on strings, as a proposition. -/
def strLe (a b : String) : Prop :=
  strLeB a.data b.data = true

instance : DecidableRel strLe := fun a b => by
  unfold strLe
  infer_instance

/-- Ascending sort of path strings, mirroring the builtin sorted call at
ingestion_agent.py line 68. -/
def sortPaths (l : List String) : List String :=
  List.insertionSort strLe l

/-- Allow-list resolution at ingestion_agent.py line 43: the defaults are
used only when the caller passed None. -/
def resolvedAllowed (allowed_extensions : Option (List String)) : List String :=
  match allowed_extensions with
  | some l => l
  | none => DEFAULT_ALLOWED_EXTENSIONS

/-- Normalized allow-set at ingestion_agent.py line 47. -/
def normalizedExts (allowed_extensions : Option (List String)) : List String :=
  (resolvedAllowed allowed_extensions).map normalizeExt

/-- Loop body of list_input_files (ingestion_agent.py lines 49 to 66):
keep an immediate child iff it is a regular file whose normalized
extension belongs to the normalized allow-set. -/
def matchingFiles (fs : FileSystem) (input_dir : String) (normalized_exts : List String) :
    List String :=
  ((dirEntries fs input_dir).map (childPath input_dir)).filter
    (fun p => pyIsFile fs p && normalized_exts.contains (listerExtension p))

/-- Embedding of list_input_files (ingestion_agent.py lines 25 to 70). -/
def list_input_files (fs : FileSystem) (input_dir : String)
    (allowed_extensions : Option (List String)) : Except PyError (List String) :=
  if pyExists fs input_dir = false then
    Except.error (PyError.fileNotFoundError
      ("Input directory " ++ input_dir ++ " was not found."))
  else if pyIsDir fs input_dir = false then
    Except.error (PyError.notADirectoryError (input_dir ++ " is not a directory."))
  else
    Except.ok (sortPaths (matchingFiles fs input_dir (normalizedExts allowed_extensions)))

/-- Record produced by one ingestion (ingestion_agent.py lines 101 to
109). -/
structure IngestionRecord where
  file_id : String
  name : String
  extension : String
  source : String
  path : String
  size_bytes : Nat
  content_bytes : Bytes
deriving DecidableEq

/-- Size reported by a stat call: the byte length of a regular file in the
snapshot. -/
def statSize (fs : FileSystem) (p : String) : Nat :=
  match fs p with
  | PathState.file content => content.length
  | _ => 0

/-- Bytes returned by the read_bytes call on a regular file in the
snapshot. -/
def readBytes (fs : FileSystem) (p : String) : Bytes :=
  match fs p with
  | PathState.file content => content
  | _ => []

/-- Embedding of ingest_file_from_path (ingestion_agent.py lines 73 to
111).  The hex digest of the uuid4 value drawn inside the call is passed
in as the parameter uuidHex, making the random draw explicit. -/
def ingest_file_from_path (fs : FileSystem) (uuidHex : String) (path : String) :
    Except PyError IngestionRecord :=
  if pyExists fs path = false then
    Except.error (PyError.fileNotFoundError ("File " ++ path ++ " does not exist."))
  else if pyIsFile fs path = false then
    Except.error (PyError.isADirectoryError (path ++ " is not a file."))
  else
    Except.ok
      { file_id := "F-" ++ String.mk (uuidHex.data.take 8)
        name := pathBaseName path
        extension := ingestExtension path
        source := "local_folder"
        path := path
        size_bytes := statSize fs path
        content_bytes := readBytes fs path }

/-- Sequential per-file loop of run_ingestion (main.py lines 32 to 34):
the i-th listed file is ingested with the i-th uuid draw, and the first
failure aborts the rest of the batch. -/
def ingestBatch (fs : FileSystem) (uuids : Nat → String) :
    List String → Nat → Except PyError (List IngestionRecord)
  | [], _ => Except.ok []
  | p :: ps, i =>
    match ingest_file_from_path fs (uuids i) p with
    | Except.error e => Except.error e
    | Except.ok r =>
      match ingestBatch fs uuids ps (i + 1) with
      | Except.error e => Except.error e
      | Except.ok rs => Except.ok (r :: rs)

/-- Embedding of run_ingestion (main.py lines 20 to 37).  Listing and
ingestion may observe different snapshots (fsList and fsIngest), so that a
file changing between the two phases is expressible. -/
def run_ingestion (fsList fsIngest : FileSystem) (uuids : Nat → String)
    (input_dir : String) : Except PyError (List IngestionRecord) :=
  match list_input_files fsList input_dir none with
  | Except.error e => Except.error e
  | Except.ok files =>
    if files.isEmpty then Except.ok []
    else ingestBatch fsIngest uuids files 0

/-- Outcome of the command-line entry point: a completed run, an exception
caught by the except clause at main.py line 48, or an exception that
propagates out of main unhandled. -/
inductive MainOutcome where
  | completed : List IngestionRecord → MainOutcome
  | caught : PyError → MainOutcome
  | uncaught : PyError → MainOutcome
deriving DecidableEq

/-- Embedding of main (main.py lines 40 to 60): runs ingestion over the
fixed input directory under the project root and catches exactly the
exception classes FileNotFoundError and NotADirectoryError. -/
def mainEntry (fsList fsIngest : FileSystem) (uuids : Nat → String)
    (project_root : String) : MainOutcome :=
  match run_ingestion fsList fsIngest uuids (project_root ++ "/input") with
  | Except.ok rs => MainOutcome.completed rs
  | Except.error (PyError.fileNotFoundError m) => MainOutcome.caught (PyError.fileNotFoundError m)
  | Except.error (PyError.notADirectoryError m) => MainOutcome.caught (PyError.notADirectoryError m)
  | Except.error e => MainOutcome.uncaught e

/-- Output sink attached to the process-wide root logger. -/
inductive Sink where
  | fileSink : String → Sink
  | consoleSink : Sink
deriving DecidableEq

/-- State of the process-wide root logger: the attached sinks in
attachment order, and the log of sinks closed so far in closing order. -/
structure LogState where
  handlers : List Sink
  closed : List Sink
deriving DecidableEq

/-- Reset loop of configure_run_logger (logging_utils.py lines 48 to 50):
every attached handler is detached and closed. -/
def resetHandlers (s : LogState) : LogState :=
  { handlers := [], closed := s.closed ++ s.handlers }

/-- Attachment of one handler (logging_utils.py lines 57 and 61). -/
def addHandler (s : LogState) (h : Sink) : LogState :=
  { s with handlers := s.handlers ++ [h] }

/-- Embedding of configure_run_logger (logging_utils.py lines 40 to 64):
reset all handlers, then attach a file handler for the run log file and a
console handler. -/
def configure_run_logger (s : LogState) (log_file : String) : LogState :=
  addHandler (addHandler (resetHandlers s) (Sink.fileSink log_file)) Sink.consoleSink

/-- Iterated calls of configure_run_logger within one process, one call
per log file path. -/
def configureMany (s : LogState) : List String → LogState
  | [] => s
  | p :: ps => configureMany (configure_run_logger s p) ps

/-- Test for a file sink. -/
def isFileSink : Sink → Bool
  | Sink.fileSink _ => true
  | Sink.consoleSink => false

/-- Test for a console sink. -/
def isConsoleSink : Sink → Bool
  | Sink.fileSink _ => false
  | Sink.consoleSink => true

/-- Lowercase hexadecimal digit test, byte-level: 0 to 9 or a to f. -/
def isLowerHex (c : Char) : Bool :=
  (48 ≤ c.toNat && c.toNat ≤ 57) || (97 ≤ c.toNat && c.toNat ≤ 102)

/-- Demo filesystem: a directory named input holding two allowed files, a
disallowed file and a subdirectory. -/
def fsDemo : FileSystem := fun p =>
  if p = "input" then PathState.dir ["b.pdf", "a.txt", "ignore.exe", "sub"]
  else if p = "input/a.txt" then PathState.file [104, 105, 10, 104, 105]
  else if p = "input/b.pdf" then PathState.file [37, 80, 68, 70, 45, 49, 46, 52, 10, 37]
  else if p = "input/ignore.exe" then PathState.file [77, 90, 10]
  else if p = "input/sub" then PathState.dir []
  else PathState.absent

/-- Listing snapshot for the mid-batch failure scenario: the input
directory under root holds one text file. -/
def fsVanishList : FileSystem := fun p =>
  if p = "root/input" then PathState.dir ["a.txt"]
  else if p = "root/input/a.txt" then PathState.file [104, 105]
  else PathState.absent

/-- Ingestion snapshot for the mid-batch failure scenario: the listed text
file has disappeared between listing and ingestion. -/
def fsVanishIngest : FileSystem := fun p =>
  if p = "root/input" then PathState.dir ["a.txt"]
  else PathState.absent

/-- Ingestion snapshot for a second mid-batch scenario: the listed path
has been replaced by a directory between listing and ingestion. -/
def fsSwapDir : FileSystem := fun p =>
  if p = "root/input" then PathState.dir ["a.txt"]
  else if p = "root/input/a.txt" then PathState.dir []
  else PathState.absent

/-- Fixed stream of uuid4 hex digests used by concrete scenarios. -/
def uuidSeq : Nat → String := fun i =>
  if i = 0 then "0123456789abcdef0123456789abcdef"
  else "fedcba9876543210fedcba9876543210"

theorem strLeB_total : ∀ a b, strLeB a b = true ∨ strLeB b a = true := by
  intro a
  induction a with
  | nil => intro b; left; rfl
  | cons c cs ih =>
    intro b
    cases b with
    | nil => right; rfl
    | cons d ds =>
      by_cases h1 : c.toNat < d.toNat
      · left; simp [strLeB, h1]
      · by_cases h2 : c.toNat = d.toNat
        · rcases ih ds with h | h
          · left; simp [strLeB, h1, h2, h]
          · right; simp [strLeB, h2, h]
        · right
          have hlt : d.toNat < c.toNat := by omega
          simp [strLeB, hlt]

theorem strLeB_trans : ∀ a b c, strLeB a b = true → strLeB b c = true → strLeB a c = true := by
  intro a
  induction a with
  | nil => intro b c _ _; rfl
  | cons x xs ih =>
    intro b c hab hbc
    cases b with
    | nil => simp [strLeB] at hab
    | cons y ys =>
      cases c with
      | nil => simp [strLeB] at hbc
      | cons z zs =>
        simp only [strLeB] at hab hbc ⊢
        split at hab
        · next h1 =>
          split at hbc
          · next h2 => simp [show x.toNat < z.toNat by omega]
          · split at hbc
            · next h2 => simp [show x.toNat < z.toNat by omega]
            · exact absurd hbc (by simp)
        · split at hab
          · next h1 h2 =>
            split at hbc
            · next h3 => simp [show x.toNat < z.toNat by omega]
            · split at hbc
              · next h3 h4 =>
                have hxz : x.toNat = z.toNat := by omega
                simp [hxz, ih ys zs hab hbc]
              · exact absurd hbc (by simp)
          · exact absurd hab (by simp)

theorem sortPaths_sorted (l : List String) : List.Sorted strLe (sortPaths l) := by
  haveI : IsTotal String strLe := ⟨fun a b => strLeB_total a.data b.data⟩
  haveI : IsTrans String strLe := ⟨fun a b c => strLeB_trans a.data b.data c.data⟩
  exact List.sorted_insertionSort strLe l

theorem sortPaths_perm (l : List String) : (sortPaths l).Perm l :=
  List.perm_insertionSort strLe l

theorem lowerChar_toNat_upper (c : Char) (h1 : 65 ≤ c.toNat) (h2 : c.toNat ≤ 90) :
    (Char.ofNat (c.toNat + 32)).toNat = c.toNat + 32 := by
  set n := c.toNat with hn
  interval_cases n <;> decide

theorem lowerChar_idem (c : Char) : lowerChar (lowerChar c) = lowerChar c := by
  unfold lowerChar
  split
  · next h =>
    rw [if_neg]
    rw [lowerChar_toNat_upper c h.1 h.2]
    omega
  · rfl

theorem lowerChar_dot_iff (c : Char) : lowerChar c = '.' ↔ c = '.' := by
  constructor
  · intro h
    unfold lowerChar at h
    split at h
    · next hr =>
      have := congrArg Char.toNat h
      rw [lowerChar_toNat_upper c hr.1 hr.2] at this
      simp only [show ('.' : Char).toNat = 46 from rfl] at this
      omega
    · exact h
  · intro h
    subst h
    decide

theorem dropWhileDot_map_lower (l : List Char) :
    (l.map lowerChar).dropWhile (fun c => c = '.') =
      (l.dropWhile (fun c => c = '.')).map lowerChar := by
  induction l with
  | nil => rfl
  | cons c cs ih =>
    by_cases h : c = '.'
    · subst h
      simp [List.dropWhile_cons, lowerChar_dot_iff, ih]
    · have hne : ¬ lowerChar c = '.' := fun hc => h ((lowerChar_dot_iff c).mp hc)
      simp [List.dropWhile_cons, h, hne]

theorem map_lower_idem (l : List Char) : (l.map lowerChar).map lowerChar = l.map lowerChar := by
  induction l with
  | nil => rfl
  | cons c cs ih => simp [lowerChar_idem, ih]

theorem dropWhile_dropWhile (p : Char → Bool) (l : List Char) :
    (l.dropWhile p).dropWhile p = l.dropWhile p := by
  induction l with
  | nil => rfl
  | cons c cs ih =>
    by_cases h : p c = true
    · simp [List.dropWhile_cons, h, ih]
    · simp [List.dropWhile_cons, h]

theorem normalizeExt_idem (e : String) : normalizeExt (normalizeExt e) = normalizeExt e := by
  simp only [normalizeExt, pyLower, pyLstripDots]
  rw [dropWhileDot_map_lower, dropWhile_dropWhile, map_lower_idem]

theorem normalizeExt_lower (e : String) : normalizeExt (pyLower e) = normalizeExt e := by
  simp only [normalizeExt, pyLower, pyLstripDots]
  rw [dropWhileDot_map_lower, map_lower_idem]

theorem pyExists_of_isDir (fs : FileSystem) (d : String) (h : pyIsDir fs d = true) :
    pyExists fs d = true := by
  unfold pyIsDir at h
  unfold pyExists
  cases hfs : fs d <;> simp [hfs] at h ⊢

theorem pyExists_of_isFile (fs : FileSystem) (p : String) (h : pyIsFile fs p = true) :
    pyExists fs p = true := by
  unfold pyIsFile at h
  unfold pyExists
  cases hfs : fs p <;> simp [hfs] at h ⊢

/-- C4: list_input_files fails with the DirectoryNotFound error (carried
by FileNotFoundError) exactly when the directory does not exist, fails
with NotADirectory exactly when the path exists but is not a directory,
and succeeds exactly when the path is a directory; being a pure
validation, no other work happens before a failure. -/
theorem lister_error_conditions (fs : FileSystem) (d : String) (a : Option (List String)) :
    ((∃ m, list_input_files fs d a = Except.error (PyError.fileNotFoundError m)) ↔
      pyExists fs d = false) ∧
    ((∃ m, list_input_files fs d a = Except.error (PyError.notADirectoryError m)) ↔
      (pyExists fs d = true ∧ pyIsDir fs d = false)) ∧
    ((∃ out, list_input_files fs d a = Except.ok out) ↔ pyIsDir fs d = true) := by
  cases hE : pyExists fs d with
  | false =>
    have hD : pyIsDir fs d = false := by
      cases hD2 : pyIsDir fs d
      · rfl
      · rw [pyExists_of_isDir fs d hD2] at hE; cases hE
    simp [list_input_files, hE, hD]
  | true =>
    cases hD : pyIsDir fs d with
    | false => simp [list_input_files, hE, hD]
    | true => simp [list_input_files, hE, hD]

/-- C5: ingest_file_from_path fails with FileNotFound exactly when the
path does not exist, fails with NotAFile (carried by IsADirectoryError)
exactly when the path exists but is not a regular file, and succeeds
exactly when the path is a regular file; the embedding is pure, so a
failure mutates nothing and reads no content. -/
theorem ingest_error_conditions (fs : FileSystem) (u : String) (p : String) :
    ((∃ m, ingest_file_from_path fs u p = Except.error (PyError.fileNotFoundError m)) ↔
      pyExists fs p = false) ∧
    ((∃ m, ingest_file_from_path fs u p = Except.error (PyError.isADirectoryError m)) ↔
      (pyExists fs p = true ∧ pyIsFile fs p = false)) ∧
    ((∃ r, ingest_file_from_path fs u p = Except.ok r) ↔ pyIsFile fs p = true) := by
  cases hE : pyExists fs p with
  | false =>
    have hF : pyIsFile fs p = false := by
      cases hF2 : pyIsFile fs p
      · rfl
      · rw [pyExists_of_isFile fs p hF2] at hE; cases hE
    simp [ingest_file_from_path, hE, hF]
  | true =>
    cases hF : pyIsFile fs p with
    | false => simp [ingest_file_from_path, hE, hF]
    | true => simp [ingest_file_from_path, hE, hF]

/-- C2: ingesting a regular file succeeds and yields a record whose
size_bytes equals the length of content_bytes, both equal to the byte
length of the file content on disk at read time. -/
theorem ingest_size_spec (fs : FileSystem) (u p : String) (content : Bytes)
    (hfile : fs p = PathState.file content) :
    ∃ r, ingest_file_from_path fs u p = Except.ok r ∧
      r.size_bytes = r.content_bytes.length ∧
      r.content_bytes = content ∧ r.size_bytes = content.length := by
  have hex : pyExists fs p = true := by simp [pyExists, hfile]
  have hf : pyIsFile fs p = true := by simp [pyIsFile, hfile]
  refine ⟨{ file_id := "F-" ++ String.mk (u.data.take 8), name := pathBaseName p,
            extension := ingestExtension p, source := "local_folder", path := p,
            size_bytes := statSize fs p, content_bytes := readBytes fs p }, ?_, ?_, ?_, ?_⟩
  · simp [ingest_file_from_path, hex, hf]
  · simp [statSize, readBytes, hfile]
  · simp [readBytes, hfile]
  · simp [statSize, hfile]

/-- Witness for C2 on the demo filesystem. -/
theorem ingest_size_spec_witness :
    ∃ r, ingest_file_from_path fsDemo (uuidSeq 0) "input/a.txt" = Except.ok r ∧
      r.size_bytes = r.content_bytes.length ∧
      r.content_bytes = [104, 105, 10, 104, 105] ∧
      r.size_bytes = ([104, 105, 10, 104, 105] : Bytes).length :=
  ingest_size_spec fsDemo (uuidSeq 0) "input/a.txt" [104, 105, 10, 104, 105] (by decide)

/-- C7: extension normalization is idempotent and case-insensitive, the
file REPORT.CSV ingests with extension csv under both the Lister rule and
the Ingestor rule, a base name without a dot yields the empty extension,
and the Lister and Ingestor extension rules are one and the same
function. -/
theorem extension_normalization_spec :
    (∀ e : String, normalizeExt (normalizeExt e) = normalizeExt e) ∧
    (∀ e : String, normalizeExt (pyLower e) = normalizeExt e) ∧
    listerExtension "input/REPORT.CSV" = "csv" ∧
    ingestExtension "input/REPORT.CSV" = "csv" ∧
    (∀ p : String, ('.' ∈ (pathBaseName p).data → False) → listerExtension p = "") ∧
    listerExtension = ingestExtension := by
  refine ⟨normalizeExt_idem, normalizeExt_lower, by decide, by decide, ?_, rfl⟩
  intro p h
  have hnone : (pathBaseName p).data.reverse.findIdx? (fun c => c = '.') = none := by
    apply List.findIdx?_eq_none_iff.mpr
    intro x hx
    simp only [decide_eq_false_iff_not]
    intro heq
    subst heq
    exact h (List.mem_reverse.mp hx)
  show pyLower (pyLstripDots (pathSuffix p)) = ""
  simp [pathSuffix, pySuffix, pyRfindDot, hnone, pyLstripDots, pyLower]

/-- Witness for C7: a path whose base name has no dot gets the empty
extension. -/
theorem extension_normalization_spec_witness :
    listerExtension "input/README" = "" :=
  extension_normalization_spec.2.2.2.2.1 "input/README" (by decide)

/-- C10: with the allow-list explicitly set to the empty list, the lister
keeps nothing, because only the None argument resolves to the default
extension set. -/
theorem empty_allowlist_spec (fs : FileSystem) (d : String) (entries : List String)
    (hdir : fs d = PathState.dir entries) :
    list_input_files fs d (some []) = Except.ok [] := by
  have hex : pyExists fs d = true := by simp [pyExists, hdir]
  have hd : pyIsDir fs d = true := by simp [pyIsDir, hdir]
  have hm : matchingFiles fs d (normalizedExts (some [])) = [] := by
    apply List.filter_eq_nil_iff.mpr
    intro p hp
    simp [normalizedExts, resolvedAllowed]
  simp [list_input_files, hex, hd, hm, sortPaths, List.insertionSort]

/-- Witness for C10 on the demo filesystem. -/
theorem empty_allowlist_spec_witness :
    list_input_files fsDemo "input" (some []) = Except.ok [] :=
  empty_allowlist_spec fsDemo "input" ["b.pdf", "a.txt", "ignore.exe", "sub"] (by decide)

/-- C1: on an existing directory the lister succeeds, the output is sorted
ascending in the lexicographic order on full paths, it is a permutation of
the loop-filtered children, and a path belongs to the output exactly when
it is an immediate child that is a regular file whose normalized extension
belongs to the normalized allow-set; in particular a directory with no
matching entries yields the empty sequence rather than an error. -/
theorem lister_spec (fs : FileSystem) (d : String) (entries : List String)
    (a : Option (List String)) (hdir : fs d = PathState.dir entries) :
    ∃ out, list_input_files fs d a = Except.ok out ∧
      List.Sorted strLe out ∧
      out.Perm (matchingFiles fs d (normalizedExts a)) ∧
      ∀ p, p ∈ out ↔ ∃ name, name ∈ entries ∧ p = childPath d name ∧
        pyIsFile fs p = true ∧ (normalizedExts a).contains (listerExtension p) = true := by
  have hex : pyExists fs d = true := by simp [pyExists, hdir]
  have hd : pyIsDir fs d = true := by simp [pyIsDir, hdir]
  refine ⟨sortPaths (matchingFiles fs d (normalizedExts a)), ?_, sortPaths_sorted _,
    sortPaths_perm _, ?_⟩
  · simp [list_input_files, hex, hd]
  · intro p
    rw [(sortPaths_perm _).mem_iff]
    simp only [matchingFiles, List.mem_filter, List.mem_map, dirEntries, hdir,
      Bool.and_eq_true]
    constructor
    · rintro ⟨⟨name, hname, hcp⟩, hfile, hcont⟩
      exact ⟨name, hname, hcp.symm, hfile, hcont⟩
    · rintro ⟨name, hname, hcp, hfile, hcont⟩
      exact ⟨⟨name, hname, hcp.symm⟩, hfile, hcont⟩

/-- Witness for C1 on the demo filesystem. -/
theorem lister_spec_witness :
    ∃ out, list_input_files fsDemo "input" none = Except.ok out ∧
      List.Sorted strLe out ∧
      out.Perm (matchingFiles fsDemo "input" (normalizedExts none)) ∧
      ∀ p, p ∈ out ↔ ∃ name, name ∈ (["b.pdf", "a.txt", "ignore.exe", "sub"] : List String) ∧
        p = childPath "input" name ∧ pyIsFile fsDemo p = true ∧
        (normalizedExts none).contains (listerExtension p) = true :=
  lister_spec fsDemo "input" ["b.pdf", "a.txt", "ignore.exe", "sub"] none (by decide)

theorem ingestBatch_ok_all (fs : FileSystem) (u : Nat → String) :
    ∀ (l : List String) (start : Nat),
      (∀ i, (hi : i < l.length) → ∃ r,
        ingest_file_from_path fs (u (start + i)) (l.get ⟨i, hi⟩) = Except.ok r) →
      ∃ rs, ingestBatch fs u l start = Except.ok rs ∧ rs.length = l.length ∧
        ∀ i, (hi : i < l.length) → ∀ (hri : i < rs.length),
          ingest_file_from_path fs (u (start + i)) (l.get ⟨i, hi⟩) =
            Except.ok (rs.get ⟨i, hri⟩) := by
  intro l
  induction l with
  | nil =>
    intro start _
    refine ⟨[], rfl, rfl, ?_⟩
    intro i hi
    simp at hi
  | cons p ps ih =>
    intro start h
    obtain ⟨r, hr⟩ := h 0 (by simp)
    have hr0 : ingest_file_from_path fs (u start) p = Except.ok r := by
      simpa using hr
    have hnext : ∀ i, (hi : i < ps.length) → ∃ r2,
        ingest_file_from_path fs (u (start + 1 + i)) (ps.get ⟨i, hi⟩) = Except.ok r2 := by
      intro i hi
      have h2 := h (i + 1) (by simpa using Nat.succ_lt_succ hi)
      have harith : start + (i + 1) = start + 1 + i := by omega
      rw [harith] at h2
      simpa using h2
    obtain ⟨rs, hrs, hlen, hpt⟩ := ih (start + 1) hnext
    refine ⟨r :: rs, ?_, by simp [hlen], ?_⟩
    · simp only [ingestBatch, hr0, hrs]
    · intro i hi hri
      cases i with
      | zero => simpa using hr0
      | succ n =>
        have hn : n < ps.length := by simpa using Nat.lt_of_succ_lt_succ (by simpa using hi)
        have hrn : n < rs.length := by
          have : n + 1 < rs.length + 1 := by simpa using hri
          omega
        have hgot := hpt n hn hrn
        have harith : start + 1 + n = start + (n + 1) := by omega
        rw [harith] at hgot
        simpa using hgot

theorem ingestBatch_error_first (fs : FileSystem) (u : Nat → String) :
    ∀ (pre : List String) (p : String) (post : List String) (start : Nat) (e : PyError),
      (∀ i, (hi : i < pre.length) → ∃ r,
        ingest_file_from_path fs (u (start + i)) (pre.get ⟨i, hi⟩) = Except.ok r) →
      ingest_file_from_path fs (u (start + pre.length)) p = Except.error e →
      ingestBatch fs u (pre ++ p :: post) start = Except.error e := by
  intro pre
  induction pre with
  | nil =>
    intro p post start e _ herr
    have herr0 : ingest_file_from_path fs (u start) p = Except.error e := by
      simpa using herr
    simp only [List.nil_append, ingestBatch, herr0]
  | cons q qs ih =>
    intro p post start e hok herr
    obtain ⟨r, hr⟩ := hok 0 (by simp)
    have hr0 : ingest_file_from_path fs (u start) q = Except.ok r := by
      simpa using hr
    have hoknext : ∀ i, (hi : i < qs.length) → ∃ r2,
        ingest_file_from_path fs (u (start + 1 + i)) (qs.get ⟨i, hi⟩) = Except.ok r2 := by
      intro i hi
      have h2 := hok (i + 1) (by simpa using Nat.succ_lt_succ hi)
      have harith : start + (i + 1) = start + 1 + i := by omega
      rw [harith] at h2
      simpa using h2
    have herrnext : ingest_file_from_path fs (u (start + 1 + qs.length)) p = Except.error e := by
      have harith : start + (q :: qs).length = start + 1 + qs.length := by
        simp [List.length_cons]
        omega
      rw [harith] at herr
      exact herr
    have hbatch := ih p post (start + 1) e hoknext herrnext
    simp only [List.cons_append, ingestBatch, hr0, List.append_eq, hbatch]

/-- C3: the runner asks the lister once for the candidate list; an empty
listing returns the empty sequence at once without error; a nonempty
listing is ingested strictly sequentially in listing order, drawing the
i-th uuid for the i-th file; when every file succeeds the runner returns
one record per listed file in processing order, and the first per-file
failure is not caught, aborting the remaining batch and propagating the
error. -/
theorem run_ingestion_spec (fsL fsI : FileSystem) (u : Nat → String) (d : String) :
    (list_input_files fsL d none = Except.ok [] → run_ingestion fsL fsI u d = Except.ok []) ∧
    (∀ files, list_input_files fsL d none = Except.ok files →
      (∀ i, (hi : i < files.length) → ∃ r,
        ingest_file_from_path fsI (u i) (files.get ⟨i, hi⟩) = Except.ok r) →
      ∃ recs, run_ingestion fsL fsI u d = Except.ok recs ∧
        recs.length = files.length ∧
        ∀ i, (hi : i < files.length) → ∀ (hri : i < recs.length),
          ingest_file_from_path fsI (u i) (files.get ⟨i, hi⟩) =
            Except.ok (recs.get ⟨i, hri⟩)) ∧
    (∀ pre p post e, list_input_files fsL d none = Except.ok (pre ++ p :: post) →
      (∀ i, (hi : i < pre.length) → ∃ r,
        ingest_file_from_path fsI (u i) (pre.get ⟨i, hi⟩) = Except.ok r) →
      ingest_file_from_path fsI (u pre.length) p = Except.error e →
      run_ingestion fsL fsI u d = Except.error e) := by
  refine ⟨?_, ?_, ?_⟩
  · intro h
    simp [run_ingestion, h]
  · intro files h hall
    cases files with
    | nil =>
      refine ⟨[], by simp [run_ingestion, h], rfl, ?_⟩
      intro i hi
      simp at hi
    | cons q qs =>
      have hall0 : ∀ i, (hi : i < (q :: qs).length) → ∃ r,
          ingest_file_from_path fsI (u (0 + i)) ((q :: qs).get ⟨i, hi⟩) = Except.ok r := by
        intro i hi
        simpa [Nat.zero_add] using hall i hi
      obtain ⟨rs, hrs, hlen, hpt⟩ := ingestBatch_ok_all fsI u (q :: qs) 0 hall0
      refine ⟨rs, ?_, hlen, ?_⟩
      · simp [run_ingestion, h, hrs]
      · intro i hi hri
        have hgot := hpt i hi hri
        simpa [Nat.zero_add] using hgot
  · intro pre p post e h hok herr
    have hok0 : ∀ i, (hi : i < pre.length) → ∃ r,
        ingest_file_from_path fsI (u (0 + i)) (pre.get ⟨i, hi⟩) = Except.ok r := by
      intro i hi
      simpa [Nat.zero_add] using hok i hi
    have herr0 : ingest_file_from_path fsI (u (0 + pre.length)) p = Except.error e := by
      simpa [Nat.zero_add] using herr
    have hbatch := ingestBatch_error_first fsI u pre p post 0 e hok0 herr0
    have hne : (pre ++ p :: post).isEmpty = false := by
      cases pre <;> simp
    simp [run_ingestion, h, hne, hbatch]

/-- Witness for C3 on the demo filesystem: both listed files ingest
successfully, giving one record per file in order. -/
theorem run_ingestion_spec_witness :
    ∃ recs, run_ingestion fsDemo fsDemo uuidSeq "input" = Except.ok recs ∧
      recs.length = (["input/a.txt", "input/b.pdf"] : List String).length ∧
      ∀ i, (hi : i < (["input/a.txt", "input/b.pdf"] : List String).length) →
        ∀ (hri : i < recs.length),
        ingest_file_from_path fsDemo (uuidSeq i)
          ((["input/a.txt", "input/b.pdf"] : List String).get ⟨i, hi⟩) =
          Except.ok (recs.get ⟨i, hri⟩) :=
  (run_ingestion_spec fsDemo fsDemo uuidSeq "input").2.1
    ["input/a.txt", "input/b.pdf"] (by rfl)
    (by
      intro i hi
      simp only [List.length_cons, List.length_nil] at hi
      interval_cases i
      · exact ⟨_, rfl⟩
      · exact ⟨_, rfl⟩)

/-- C8: under the library guarantee that each uuid4 hex digest is a string
of 32 lowercase hexadecimal characters, every produced file_id is the two
characters F- followed by exactly 8 lowercase hexadecimal characters; a
fresh digest is drawn on each call, and whenever the two drawn 8-character
digests differ, re-ingesting the same path yields records agreeing on
name, extension, size_bytes and content_bytes while carrying different
file_id values. -/
theorem file_id_spec (fs : FileSystem) (p : String) (content : Bytes) (u1 u2 : String)
    (hfile : fs p = PathState.file content)
    (hlen1 : u1.data.length = 32) (hhex1 : u1.data.all isLowerHex = true)
    (hdiff : u1.data.take 8 ≠ u2.data.take 8) :
    ∃ r1 r2, ingest_file_from_path fs u1 p = Except.ok r1 ∧
      ingest_file_from_path fs u2 p = Except.ok r2 ∧
      r1.file_id.data = 'F' :: '-' :: u1.data.take 8 ∧
      (u1.data.take 8).length = 8 ∧
      (∀ c ∈ u1.data.take 8, isLowerHex c = true) ∧
      r1.name = r2.name ∧ r1.extension = r2.extension ∧
      r1.size_bytes = r2.size_bytes ∧ r1.content_bytes = r2.content_bytes ∧
      r1.file_id ≠ r2.file_id := by
  have hex : pyExists fs p = true := by simp [pyExists, hfile]
  have hf : pyIsFile fs p = true := by simp [pyIsFile, hfile]
  refine ⟨{ file_id := "F-" ++ String.mk (u1.data.take 8), name := pathBaseName p,
            extension := ingestExtension p, source := "local_folder", path := p,
            size_bytes := statSize fs p, content_bytes := readBytes fs p },
          { file_id := "F-" ++ String.mk (u2.data.take 8), name := pathBaseName p,
            extension := ingestExtension p, source := "local_folder", path := p,
            size_bytes := statSize fs p, content_bytes := readBytes fs p },
          ?_, ?_, ?_, ?_, ?_, rfl, rfl, rfl, rfl, ?_⟩
  · simp [ingest_file_from_path, hex, hf]
  · simp [ingest_file_from_path, hex, hf]
  · rw [String.data_append]
    rfl
  · rw [List.length_take, hlen1]
    rfl
  · intro c hc
    exact List.all_eq_true.mp hhex1 c (List.mem_of_mem_take hc)
  · intro hfid
    apply hdiff
    have hd := congrArg String.data hfid
    rw [String.data_append, String.data_append] at hd
    simpa using hd

/-- Witness for C8 with two concrete distinct uuid digests. -/
theorem file_id_spec_witness :
    ∃ r1 r2, ingest_file_from_path fsDemo (uuidSeq 0) "input/a.txt" = Except.ok r1 ∧
      ingest_file_from_path fsDemo (uuidSeq 1) "input/a.txt" = Except.ok r2 ∧
      r1.file_id.data = 'F' :: '-' :: (uuidSeq 0).data.take 8 ∧
      ((uuidSeq 0).data.take 8).length = 8 ∧
      (∀ c ∈ (uuidSeq 0).data.take 8, isLowerHex c = true) ∧
      r1.name = r2.name ∧ r1.extension = r2.extension ∧
      r1.size_bytes = r2.size_bytes ∧ r1.content_bytes = r2.content_bytes ∧
      r1.file_id ≠ r2.file_id :=
  file_id_spec fsDemo "input/a.txt" [104, 105, 10, 104, 105] (uuidSeq 0) (uuidSeq 1)
    (by decide) (by decide) (by decide) (by decide)

theorem configureMany_state : ∀ (ps : List String) (s : LogState), ps ≠ [] →
    (configureMany s ps).handlers = [Sink.fileSink (ps.getLastD ""), Sink.consoleSink] ∧
    (configureMany s ps).closed =
      s.closed ++ s.handlers ++
        ps.dropLast.flatMap (fun q => [Sink.fileSink q, Sink.consoleSink]) := by
  intro ps
  induction ps with
  | nil => intro s h; exact absurd rfl h
  | cons p qs ih =>
    intro s _
    cases qs with
    | nil =>
      constructor
      · rfl
      · simp [configureMany, configure_run_logger, addHandler, resetHandlers]
    | cons q qs2 =>
      have h2 := ih (configure_run_logger s p) (by simp)
      constructor
      · rw [show configureMany s (p :: q :: qs2) =
            configureMany (configure_run_logger s p) (q :: qs2) from rfl, h2.1]
        rfl
      · rw [show configureMany s (p :: q :: qs2) =
            configureMany (configure_run_logger s p) (q :: qs2) from rfl, h2.2]
        simp [configure_run_logger, addHandler, resetHandlers, List.append_assoc]

/-- C9: after any nonempty sequence of configure_run_logger calls in one
process, the root logger holds exactly one file sink (for the last
computed log file) and one console sink, and every sink attached earlier
in the process has been detached and closed, in call order, before the
final pair was attached. -/
theorem logger_sink_spec (s : LogState) (ps : List String) (h : ps ≠ []) :
    (configureMany s ps).handlers = [Sink.fileSink (ps.getLastD ""), Sink.consoleSink] ∧
    (configureMany s ps).handlers.countP isFileSink = 1 ∧
    (configureMany s ps).handlers.countP isConsoleSink = 1 ∧
    (configureMany s ps).closed =
      s.closed ++ s.handlers ++
        ps.dropLast.flatMap (fun q => [Sink.fileSink q, Sink.consoleSink]) := by
  obtain ⟨h1, h2⟩ := configureMany_state ps s h
  refine ⟨h1, ?_, ?_, h2⟩
  · rw [h1]
    simp [List.countP_cons, isFileSink]
  · rw [h1]
    simp [List.countP_cons, isConsoleSink]

/-- Witness for C9: two consecutive calls starting from a state with one
stray handler leave exactly one file sink and one console sink, with all
earlier sinks closed. -/
theorem logger_sink_spec_witness :
    (configureMany { handlers := [Sink.consoleSink], closed := [] } ["log1", "log2"]).handlers =
      [Sink.fileSink ((["log1", "log2"] : List String).getLastD ""), Sink.consoleSink] ∧
    (configureMany { handlers := [Sink.consoleSink], closed := [] }
        ["log1", "log2"]).handlers.countP isFileSink = 1 ∧
    (configureMany { handlers := [Sink.consoleSink], closed := [] }
        ["log1", "log2"]).handlers.countP isConsoleSink = 1 ∧
    (configureMany { handlers := [Sink.consoleSink], closed := [] } ["log1", "log2"]).closed =
      ([] : List Sink) ++ [Sink.consoleSink] ++
        (["log1", "log2"] : List String).dropLast.flatMap
          (fun q => [Sink.fileSink q, Sink.consoleSink]) :=
  logger_sink_spec { handlers := [Sink.consoleSink], closed := [] } ["log1", "log2"] (by decide)

/-- Amended C6: the command-line entry point catches the exception classes
FileNotFoundError and NotADirectoryError wherever they arise in the run,
so directory-level failures are caught and logged, and a mid-batch
per-file FileNotFoundError (a listed file disappearing before ingestion)
is caught by the very same clause rather than propagating; only an error
outside those two classes, such as the IsADirectoryError raised when a
listed path is no longer a regular file, propagates unhandled. -/
theorem main_catch_spec (fsL fsI : FileSystem) (u : Nat → String) (root : String) :
    (∀ m, run_ingestion fsL fsI u (root ++ "/input") =
        Except.error (PyError.fileNotFoundError m) →
      mainEntry fsL fsI u root = MainOutcome.caught (PyError.fileNotFoundError m)) ∧
    (∀ m, run_ingestion fsL fsI u (root ++ "/input") =
        Except.error (PyError.notADirectoryError m) →
      mainEntry fsL fsI u root = MainOutcome.caught (PyError.notADirectoryError m)) ∧
    (∀ m, run_ingestion fsL fsI u (root ++ "/input") =
        Except.error (PyError.isADirectoryError m) →
      mainEntry fsL fsI u root = MainOutcome.uncaught (PyError.isADirectoryError m)) ∧
    (∀ rs, run_ingestion fsL fsI u (root ++ "/input") = Except.ok rs →
      mainEntry fsL fsI u root = MainOutcome.completed rs) := by
  refine ⟨?_, ?_, ?_, ?_⟩ <;> intro x hx <;> simp [mainEntry, hx]

/-- Counterexample to C6 as stated: a listed text file disappears between
listing and ingestion, so a per-file FileNotFoundError surfaces mid-batch,
and the entry point catches it instead of letting it propagate as an
unhandled failure. -/
theorem main_catch_counterexample :
    list_input_files fsVanishList "root/input" none = Except.ok ["root/input/a.txt"] ∧
    ingest_file_from_path fsVanishIngest (uuidSeq 0) "root/input/a.txt" =
      Except.error (PyError.fileNotFoundError "File root/input/a.txt does not exist.") ∧
    run_ingestion fsVanishList fsVanishIngest uuidSeq "root/input" =
      Except.error (PyError.fileNotFoundError "File root/input/a.txt does not exist.") ∧
    mainEntry fsVanishList fsVanishIngest uuidSeq "root" =
      MainOutcome.caught (PyError.fileNotFoundError "File root/input/a.txt does not exist.") := by
  refine ⟨?_, ?_, ?_, ?_⟩ <;> rfl

/-- Witness for the amended C6: a listed path replaced by a directory
between listing and ingestion raises IsADirectoryError mid-batch, which
the entry point does not catch. -/
theorem main_catch_spec_witness :
    mainEntry fsVanishList fsSwapDir uuidSeq "root" =
      MainOutcome.uncaught (PyError.isADirectoryError "root/input/a.txt is not a file.") :=
  (main_catch_spec fsVanishList fsSwapDir uuidSeq "root").2.2.1
    "root/input/a.txt is not a file." (by rfl)

end DocInsight
